import Mathlib

/-!
Verification development for the celltypist prediction pipeline
(src/celltypist/classifier.py and src/celltypist/models.py).

The numeric dtype of the expression matrix, scaler vectors and coefficient
matrix is modelled with exact rationals; matrices are lists of rows.
Gene and class names are strings.  Third-party library calls that the
source delegates to (sklearn's decision_function, scipy's expit) are
modelled per the spec: decision_function as the linear transform
X·Wᵀ + intercept, and expit as an abstract parameter σ applied entrywise.
-/

namespace Celltypist

/-- Entrywise clipping `indata[indata > 10] = 10` (classifier.py line 186):
values strictly above 10 are replaced by 10; there is no lower clip. -/
def clip10 (x : ℚ) : ℚ := if x > 10 then 10 else x

/-- Dot product of a data row with a weight row, pairing columns positionally. -/
def dot (xs ws : List ℚ) : ℚ := ((xs.zip ws).map (fun p => p.1 * p.2)).sum

/-- First index at which a list attains its maximum — numpy `argmax` / pandas
`idxmax` semantics (first occurrence wins on ties). -/
def argmaxIdx {α : Type} [LinearOrder α] (xs : List α) : Nat :=
  xs.findIdx (fun x => decide (∀ y ∈ xs, y ≤ x))

/-- Python `'|'.join(...)` as used at models.py line 114. -/
def pipeJoin : List String → String
  | [] => ""
  | [s] => s
  | s :: rest => s ++ "|" ++ pipeJoin rest

/-- Indices (in traversal order) of entries satisfying a predicate:
`np.where(p(l))[0]` over a 1-d array. -/
def whereIdx {α : Type} (l : List α) (p : α → Bool) : List Nat :=
  ((l.enum).filter (fun pr => p pr.2)).map (fun pr => pr.1)

/-- The linear classifier stored in a model: per-class label list, ordered
feature (gene) list, per-class weight rows, per-class intercepts, and the
feature count attribute `n_features_in_`. -/
structure SGDClassifier where
  classes_ : List String
  features : List String
  coef_ : List (List ℚ)
  intercept_ : List ℚ
  n_features_in_ : Nat
deriving DecidableEq

/-- The standard scaler stored in a model: per-feature mean and scale,
aligned to the classifier's feature list. -/
structure StandardScaler where
  mean_ : List ℚ
  scale_ : List ℚ
deriving DecidableEq

/-- A loaded celltypist model (models.py class Model): classifier plus scaler. -/
structure Model where
  classifier : SGDClassifier
  scaler : StandardScaler
deriving DecidableEq

/-- The state a Classifier instance carries into celltype(): the log-normalized
expression matrix (cells × genes), the input gene list, and the model. -/
structure CellState where
  indata : List (List ℚ)
  indata_genes : List String
  model : Model
deriving DecidableEq

/-- `k_x_idx = np.where(np.isin(self.indata_genes, self.model.classifier.features))[0]`
(classifier.py lines 174-176): positions, in input order, of the input genes
present in the model's feature list. -/
def k_x_idx (st : CellState) : List Nat :=
  whereIdx st.indata_genes (fun g => st.model.classifier.features.contains g)

/-- `self.indata_genes = self.indata_genes[k_x_idx]` (classifier.py line 178). -/
def alignedGenes (st : CellState) : List String :=
  (k_x_idx st).map (fun j => st.indata_genes.getD j "")

/-- `lr_idx` (classifier.py line 179): position of each kept gene in the
model's feature list (pandas index lookup; first occurrence, assuming the
model's feature names are unique as a pandas index requires). -/
def lr_idx (st : CellState) : List Nat :=
  (alignedGenes st).map (fun g => st.model.classifier.features.indexOf g)

/-- `means_ = self.model.scaler.mean_[lr_idx]` (classifier.py line 182). -/
def means_ (st : CellState) : List ℚ :=
  (lr_idx st).map (fun t => st.model.scaler.mean_.getD t 0)

/-- `sds_ = self.model.scaler.scale_[lr_idx]` (classifier.py line 183). -/
def sds_ (st : CellState) : List ℚ :=
  (lr_idx st).map (fun t => st.model.scaler.scale_.getD t 0)

/-- Column restriction plus scaling for one matrix row (classifier.py lines
177 and 184-186): keep the `k_x_idx` columns, subtract `means_`, divide by
`sds_`, clip above at 10. -/
def scaleRow (st : CellState) (r : List ℚ) : List ℚ :=
  (((k_x_idx st).map (fun j => r.getD j 0)).zip ((means_ st).zip (sds_ st))).map
    (fun p => clip10 ((p.1 - p.2.1) / p.2.2))

/-- Gene alignment, rescaling and in-place model subsetting: classifier.py
lines 173-190.  The matrix is restricted to the overlapping genes in the
*input's* order and standardized; the classifier's `n_features_in_`,
`features` and `coef_` are overwritten with the `lr_idx`-subset; the scaler
object itself is left untouched (its reindexed copies are locals). -/
def celltypeAlign (st : CellState) : CellState :=
  { indata := st.indata.map (fun row => scaleRow st row)
    indata_genes := alignedGenes st
    model :=
      { st.model with
        classifier :=
          { st.model.classifier with
            n_features_in_ := (lr_idx st).length
            features := (lr_idx st).map (fun t => st.model.classifier.features.getD t "")
            coef_ := st.model.classifier.coef_.map
              (fun crow => (lr_idx st).map (fun t => crow.getD t 0)) } } }

/-- Modelled from the spec: sklearn's `decision_function`, which the source
calls at models.py line 108, is library code outside this repository; §4.2
specifies it as the linear transform matrix·weights + intercept per class. -/
def decision_function (clf : SGDClassifier) (X : List (List ℚ)) : List (List ℚ) :=
  X.map (fun row => (clf.coef_.zip clf.intercept_).map (fun cw => dot row cw.1 + cw.2))

/-- Model.predict_labels_and_prob (models.py lines 86-118).  σ stands for
scipy's expit applied entrywise (probability = σ(score)).  `best match`
labels each cell with `classes_[argmax row]`; `prob match` joins with `|`
the classes whose probability strictly exceeds `p_thres` and replaces an
empty join by the sentinel `Unassigned`; any other mode raises ValueError. -/
def predict_labels_and_prob (σ : ℚ → ℚ) (clf : SGDClassifier) (indata : List (List ℚ))
    (mode : String) (p_thres : ℚ) :
    Except String (List (List ℚ) × List (List ℚ) × List String) :=
  let scores := decision_function clf indata
  let probs := scores.map (fun row => row.map σ)
  if mode = "best match" then
    Except.ok (scores, probs, scores.map (fun row => clf.classes_.getD (argmaxIdx row) ""))
  else if mode = "prob match" then
    let labs := probs.map (fun row =>
      let onIdx := whereIdx row (fun p => decide (p > p_thres))
      let joined := pipeJoin (onIdx.map (fun j => clf.classes_.getD j ""))
      if joined = "" then "Unassigned" else joined)
    Except.ok (scores, probs, labs)
  else
    Except.error "Unrecognized mode, should be one of best match or prob match"

/-- The alignment stage of Classifier.celltype followed by the evaluation of
the call on the right-hand side of classifier.py line 193: the (scores,
probabilities, labels) triple that predict_labels_and_prob computes and
returns (models.py lines 108-111) on the mutated model, in the default
`best match` mode with threshold 0.5, before the caller unpacks it. -/
def celltypePredict (σ : ℚ → ℚ) (st : CellState) :
    CellState × Except String (List (List ℚ) × List (List ℚ) × List String) :=
  let st1 := celltypeAlign st
  (st1, predict_labels_and_prob σ st1.model.classifier st1.indata "best match" (1 / 2))

/-- Classifier.celltype (classifier.py lines 161-197): align and rescale,
then call predict_labels_and_prob on the (now mutated) model.  Line 193
unpacks the returned value into the two names `lab_mat, prob_mat`, but
models.py line 111 returns a 3-tuple, so the unpacking raises ValueError on
every run that reaches it; an error raised inside predict (unrecognized
mode) propagates instead.  The mutated state is kept alongside. -/
def celltype (σ : ℚ → ℚ) (st : CellState) :
    CellState × Except String (List (List ℚ) × List (List ℚ) × List String) :=
  let st1 := celltypeAlign st
  (st1,
    match predict_labels_and_prob σ st1.model.classifier st1.indata "best match" (1 / 2) with
    | Except.error e => Except.error e
    | Except.ok _ => Except.error "ValueError: too many values to unpack (expected 2)")

/-- Modelled from the spec: the aligned gene list as §3 and §4.1 describe it,
namely the intersection of model features and input genes arranged in the
*model's* original feature order.  Declared only to be compared against what
`celltypeAlign` actually produces. -/
def modelOrderIntersection (features genes : List String) : List String :=
  features.filter (fun g => genes.contains g)

/-- An AnnotationResult: the predicted_labels DataFrame stored column-wise as
(column name, per-cell values) pairs, plus the probability matrix. -/
structure AnnotationResult where
  labelCols : List (String × List String)
  probability_table : List (List ℚ)
deriving DecidableEq

/-- Column lookup in the predicted_labels table, `df[name]`. -/
def getCol (r : AnnotationResult) (name : String) : List String :=
  ((r.labelCols.filter (fun c => c.1 == name)).headD (name, [])).2

/-- One cell of the `pd.crosstab(labels, clusters)` contingency table: the
number of cells carrying predicted label `lab` inside cluster `clu`. -/
def clusterCount (labels clusters : List String) (lab clu : String) : Nat :=
  ((labels.zip clusters).filter (fun p => p.1 == lab && p.2 == clu)).length

/-- The canonical row order of the crosstab: the distinct predicted labels
sorted ascending (pandas sorts the categorical index). -/
def crosstabRows (labels : List String) : List String :=
  List.insertionSort (fun a b => a ≤ b) labels.dedup

/-- `votes.idxmax()` for one cluster column: the first row label, in the
crosstab's canonical row order, whose count in the column is maximal. -/
def majorityOf (labels clusters : List String) (clu : String) : String :=
  let rows := crosstabRows labels
  let counts := rows.map (fun lab => clusterCount labels clusters lab clu)
  rows.getD (argmaxIdx counts) ""

/-- Classifier.majority_vote (classifier.py lines 248-276): build the
label × cluster contingency table, take the per-cluster idxmax, broadcast it
back to every cell via its cluster id, and join the two new columns
`over_clustering` and `majority_voting` onto the predicted_labels table.
The probability table is untouched. -/
def majority_vote (predictions : AnnotationResult) (over_clustering : List String) :
    AnnotationResult :=
  let labs := getCol predictions "predicted_labels"
  let mv := over_clustering.map (fun c => majorityOf labs over_clustering c)
  { predictions with
    labelCols := predictions.labelCols ++
      [("over_clustering", over_clustering), ("majority_voting", mv)] }

/-- One entry of the models.json index. -/
structure ModelEntry where
  filename : String
  url : String
deriving DecidableEq

/-- Outcome recorded for one model while running the download loop. -/
inductive DownloadEvent where
  | skipped (filename : String)
  | downloaded (filename : String)
  | failed (filename : String) (err : String)
deriving DecidableEq

/-- download_models (models.py lines 231-265).  `net` models the network
(`requests.get(url)`), `existing` the set of model files already on disk.
Line 249 reads `if len(model_list)!=0:`, but the name `model_list` is bound
nowhere in the module (the parameter is called `model`), so every invocation
raises NameError at line 249, before the download loop is ever entered. -/
def download_models (modelsJson : List ModelEntry) (existing : List String)
    (net : String → Except String String) (force_update : Bool) :
    Except String (List DownloadEvent) :=
  Except.error "NameError: name model_list is not defined"

/-- The download loop of download_models (models.py lines 254-265), embedded
separately from the dead code guarding it: per model, skip when the file
exists and force_update is false, otherwise attempt the download; a failure
is caught by the per-model try/except, logged, and the loop continues. -/
def download_models_loop (modelsJson : List ModelEntry) (existing : List String)
    (net : String → Except String String) (force_update : Bool) : List DownloadEvent :=
  modelsJson.map (fun m =>
    if existing.contains m.filename && !force_update then DownloadEvent.skipped m.filename
    else
      match net m.url with
      | Except.ok _ => DownloadEvent.downloaded m.filename
      | Except.error e => DownloadEvent.failed m.filename e)

/-! ### Helper lemmas: findIdx and argmaxIdx -/

theorem findIdx_le_of_true {α : Type} {p : α → Bool} {l : List α} {k : Nat}
    (hk : k < l.length) (h : p l[k] = true) : l.findIdx p ≤ k := by
  by_contra hlt
  push_neg at hlt
  simp [List.not_of_lt_findIdx hlt] at h

theorem findIdx_eq_of_first {α : Type} {p : α → Bool} {l : List α} {k : Nat}
    (hk : k < l.length) (hpk : p l[k] = true)
    (hbelow : ∀ j (hj : j < l.length), j < k → p (l.get ⟨j, hj⟩) = false) :
    l.findIdx p = k := by
  have h1 : l.findIdx p ≤ k := findIdx_le_of_true hk hpk
  rcases lt_or_eq_of_le h1 with h2 | h2
  · have hfl : l.findIdx p < l.length := lt_trans h2 hk
    have h3 : p (l.get ⟨l.findIdx p, hfl⟩) = true := by
      have h4 := @List.findIdx_getElem _ p l hfl
      simpa using h4
    have h5 := hbelow (l.findIdx p) hfl h2
    rw [h5] at h3
    cases h3
  · exact h2

theorem exists_max_mem {α : Type} [LinearOrder α] {xs : List α} (h : xs ≠ []) :
    ∃ x ∈ xs, ∀ y ∈ xs, y ≤ x := by
  induction xs with
  | nil => simp at h
  | cons a l ih =>
    rcases eq_or_ne l [] with rfl | hl
    · exact ⟨a, by simp⟩
    · obtain ⟨x, hx, hmax⟩ := ih hl
      rcases le_total x a with hc | hc
      · refine ⟨a, by simp, ?_⟩
        intro y hy
        rcases List.mem_cons.mp hy with rfl | hy
        · exact le_refl y
        · exact le_trans (hmax y hy) hc
      · refine ⟨x, List.mem_cons_of_mem _ hx, ?_⟩
        intro y hy
        rcases List.mem_cons.mp hy with rfl | hy
        · exact hc
        · exact hmax y hy

theorem argmaxIdx_lt_length {α : Type} [LinearOrder α] {xs : List α} (h : xs ≠ []) :
    argmaxIdx xs < xs.length := by
  obtain ⟨x, hx, hmax⟩ := exists_max_mem h
  exact List.findIdx_lt_length_of_exists ⟨x, hx, by simpa using hmax⟩

theorem argmaxIdx_max {α : Type} [LinearOrder α] {xs : List α} (h : xs ≠ []) :
    ∀ y ∈ xs, y ≤ xs.get ⟨argmaxIdx xs, argmaxIdx_lt_length h⟩ := by
  have h3 := @List.findIdx_getElem _ (fun x => decide (∀ y ∈ xs, y ≤ x)) xs
    (argmaxIdx_lt_length h)
  simpa using h3

theorem argmaxIdx_le_of_max {α : Type} [LinearOrder α] {xs : List α} {k : Nat}
    (hk : k < xs.length) (hmax : ∀ y ∈ xs, y ≤ xs[k]) : argmaxIdx xs ≤ k :=
  findIdx_le_of_true hk (by simpa using hmax)

theorem argmaxIdx_eq_of_strict {α : Type} [LinearOrder α] {xs : List α} {k : Nat}
    (hk : k < xs.length)
    (hstrict : ∀ j (hj : j < xs.length), j ≠ k → xs.get ⟨j, hj⟩ < xs[k]) :
    argmaxIdx xs = k := by
  have hmax : ∀ y ∈ xs, y ≤ xs[k] := by
    intro y hy
    obtain ⟨j, hj, rfl⟩ := List.mem_iff_getElem.mp hy
    rcases eq_or_ne j k with rfl | hne
    · exact le_refl _
    · exact le_of_lt (hstrict j hj hne)
  refine findIdx_eq_of_first hk (by simpa using hmax) ?_
  intro j hj hjk
  simp only [decide_eq_false_iff_not]
  intro hall
  have h1 : xs[k] ≤ xs.get ⟨j, hj⟩ := hall _ (List.getElem_mem hk)
  have h2 : xs.get ⟨j, hj⟩ < xs[k] := hstrict j hj (Nat.ne_of_lt hjk)
  exact absurd h1 (not_le.mpr h2)

/-! ### Helper lemmas: whereIdx -/

theorem enumFrom_one_eq_map {α : Type} (l : List α) :
    List.enumFrom 1 l = l.enum.map (Prod.map (fun j => 1 + j) id) := by
  rw [List.enumFrom_eq_zip_range', List.enum_eq_zip_range, List.range'_eq_map_range,
    List.zip_map_left]

theorem whereIdx_nil {α : Type} (p : α → Bool) : whereIdx ([] : List α) p = [] := rfl

theorem whereIdx_cons {α : Type} (a : α) (l : List α) (p : α → Bool) :
    whereIdx (a :: l) p =
      (if p a then [0] else []) ++ (whereIdx l p).map (fun j => j + 1) := by
  unfold whereIdx
  rw [List.enum_cons, enumFrom_one_eq_map, List.filter_cons]
  by_cases hpa : p a
  · simp [hpa, List.filter_map, List.map_map, Function.comp_def, Prod.map, Nat.add_comm]
  · simp [hpa, List.filter_map, List.map_map, Function.comp_def, Prod.map, Nat.add_comm]

theorem whereIdx_map_pair {α β : Type} (p : α → Bool) (d : α) (e : β) :
    ∀ (gs : List α) (r : List β), r.length = gs.length →
      (whereIdx gs p).map (fun j => (gs.getD j d, r.getD j e)) =
        (gs.zip r).filter (fun pr => p pr.1) := by
  intro gs
  induction gs with
  | nil => intro r h; simp [whereIdx_nil]
  | cons g gs ih =>
    intro r h
    match r with
    | [] => simp at h
    | x :: r' =>
      simp only [List.length_cons, Nat.succ.injEq] at h
      rw [whereIdx_cons, List.map_append, List.map_map]
      have htail : ((whereIdx gs p).map
          ((fun j => ((g :: gs).getD j d, (x :: r').getD j e)) ∘ fun j => j + 1)) =
          (gs.zip r').filter (fun pr => p pr.1) := by
        rw [← ih r' h]
        apply List.map_congr_left
        intro j _
        simp [Function.comp, List.getD_cons_succ]
      by_cases hpg : p g
      · simp only [hpg, if_true, List.map_cons, List.map_nil, List.getD_cons_zero,
          List.zip_cons_cons, List.filter_cons, List.singleton_append]
        rw [htail]
      · simp only [hpg, if_false, List.map_nil, List.nil_append,
          List.zip_cons_cons, List.filter_cons]
        rw [htail]
        simp [hpg]

theorem whereIdx_map_fn {α β γ : Type} (p : α → Bool) (d : α) (e : β) (F : α → β → γ)
    (gs : List α) (r : List β) (h : r.length = gs.length) :
    (whereIdx gs p).map (fun j => F (gs.getD j d) (r.getD j e)) =
      ((gs.zip r).filter (fun pr => p pr.1)).map (fun pr => F pr.1 pr.2) := by
  rw [← whereIdx_map_pair p d e gs r h, List.map_map]
  apply List.map_congr_left
  intro j _
  rfl

theorem whereIdx_map_getD {α : Type} (p : α → Bool) (d : α) :
    ∀ (gs : List α), (whereIdx gs p).map (fun j => gs.getD j d) = gs.filter p := by
  intro gs
  induction gs with
  | nil => simp [whereIdx_nil]
  | cons g gs ih =>
    rw [whereIdx_cons, List.map_append, List.map_map, List.filter_cons]
    have htail : ((whereIdx gs p).map ((fun j => (g :: gs).getD j d) ∘ fun j => j + 1)) =
        gs.filter p := by
      rw [← ih]
      apply List.map_congr_left
      intro j _
      simp [Function.comp, List.getD_cons_succ]
    rw [htail]
    by_cases hpg : p g
    · simp [hpg]
    · simp [hpg]

theorem range_map_pair {α β : Type} (d : α) (e : β) :
    ∀ (gs : List α) (r : List β), r.length = gs.length →
      (List.range gs.length).map (fun j => (gs.getD j d, r.getD j e)) = gs.zip r := by
  intro gs
  induction gs with
  | nil => intro r h; simp
  | cons g gs ih =>
    intro r h
    match r with
    | [] => simp at h
    | x :: r' =>
      simp only [List.length_cons, Nat.succ.injEq] at h
      rw [List.length_cons, List.range_succ_eq_map, List.map_cons, List.map_map]
      have htail : ((List.range gs.length).map
          ((fun j => ((g :: gs).getD j d, (x :: r').getD j e)) ∘ Nat.succ)) =
          gs.zip r' := by
        rw [← ih r' h]
        apply List.map_congr_left
        intro j _
        simp [Function.comp, List.getD_cons_succ]
      rw [htail]
      simp [List.getD_cons_zero]

/-! ### Structural lemmas about the alignment step -/

theorem getD_indexOf {l : List String} {g : String} (h : g ∈ l) :
    l.getD (l.indexOf g) "" = g := by
  rw [List.getD_eq_getElem l "" (List.indexOf_lt_length.mpr h)]
  exact List.getElem_indexOf _

theorem alignedGenes_eq (st : CellState) :
    alignedGenes st =
      st.indata_genes.filter (fun g => st.model.classifier.features.contains g) :=
  whereIdx_map_getD _ "" st.indata_genes

theorem mem_alignedGenes_mem_features {st : CellState} {g : String}
    (h : g ∈ alignedGenes st) : g ∈ st.model.classifier.features := by
  rw [alignedGenes_eq] at h
  exact List.mem_of_elem_eq_true (List.mem_filter.mp h).2

theorem align_features_eq (st : CellState) :
    (celltypeAlign st).model.classifier.features = alignedGenes st := by
  show (lr_idx st).map (fun t => st.model.classifier.features.getD t "") = alignedGenes st
  unfold lr_idx
  rw [List.map_map]
  have h : ∀ g ∈ alignedGenes st,
      ((fun t => st.model.classifier.features.getD t "") ∘
        fun g => st.model.classifier.features.indexOf g) g = g := by
    intro g hg
    exact getD_indexOf (mem_alignedGenes_mem_features hg)
  rw [List.map_congr_left h]
  simp

theorem align_coef_eq (st : CellState) :
    (celltypeAlign st).model.classifier.coef_ =
      st.model.classifier.coef_.map (fun crow =>
        (alignedGenes st).map
          (fun g => crow.getD (st.model.classifier.features.indexOf g) 0)) := by
  show st.model.classifier.coef_.map (fun crow => (lr_idx st).map (fun t => crow.getD t 0)) = _
  apply List.map_congr_left
  intro crow _
  unfold lr_idx
  rw [List.map_map]
  rfl

theorem align_nfeat_eq (st : CellState) :
    (celltypeAlign st).model.classifier.n_features_in_ = (alignedGenes st).length := by
  show (lr_idx st).length = (alignedGenes st).length
  unfold lr_idx
  rw [List.length_map]

theorem align_classes_eq (st : CellState) :
    (celltypeAlign st).model.classifier.classes_ = st.model.classifier.classes_ := rfl

theorem align_intercept_eq (st : CellState) :
    (celltypeAlign st).model.classifier.intercept_ = st.model.classifier.intercept_ := rfl

theorem align_scaler_eq (st : CellState) :
    (celltypeAlign st).model.scaler = st.model.scaler := rfl

theorem scaleRow_kIdx (st : CellState) (r : List ℚ) :
    scaleRow st r = (k_x_idx st).map (fun j =>
      clip10 ((r.getD j 0 -
          st.model.scaler.mean_.getD
            (st.model.classifier.features.indexOf (st.indata_genes.getD j "")) 0) /
        st.model.scaler.scale_.getD
          (st.model.classifier.features.indexOf (st.indata_genes.getD j "")) 0)) := by
  unfold scaleRow means_ sds_ lr_idx alignedGenes
  rw [List.map_map, List.map_map, List.map_map, List.map_map, List.zip_map',
    List.zip_map', List.map_map]
  rfl

/-! ### A closed form for the scores produced by celltype() -/

/-- Contribution of one kept gene to a class score: standardized, clipped
expression times the class weight, everything re-indexed through the gene's
position in the model's original feature list. -/
def refTerm (features : List String) (sc : StandardScaler) (w : List ℚ) (g : String)
    (x : ℚ) : ℚ :=
  clip10 ((x - sc.mean_.getD (features.indexOf g) 0) / sc.scale_.getD (features.indexOf g) 0) *
    w.getD (features.indexOf g) 0

/-- Closed form of one cell's score row: for each class, the sum over the
kept (gene, expression) pairs — the input's gene/value pairs restricted to
genes in the model — of their contributions, plus the intercept. -/
def refScoreRow (m : Model) (gs : List String) (r : List ℚ) : List ℚ :=
  (m.classifier.coef_.zip m.classifier.intercept_).map (fun cw =>
    (((gs.zip r).filter (fun pr => m.classifier.features.contains pr.1)).map
      (fun pr => refTerm m.classifier.features m.scaler cw.1 pr.1 pr.2)).sum + cw.2)

theorem dot_map_map {ι : Type} (l : List ι) (f g : ι → ℚ) :
    dot (l.map f) (l.map g) = (l.map (fun j => f j * g j)).sum := by
  unfold dot
  rw [List.zip_map', List.map_map]
  rfl

theorem dot_scaleRow (st : CellState) (r : List ℚ) (crow : List ℚ)
    (h : r.length = st.indata_genes.length) :
    dot (scaleRow st r) ((lr_idx st).map (fun t => crow.getD t 0)) =
      (((st.indata_genes.zip r).filter
          (fun pr => st.model.classifier.features.contains pr.1)).map
        (fun pr => refTerm st.model.classifier.features st.model.scaler crow pr.1 pr.2)).sum := by
  have hcoef : (lr_idx st).map (fun t => crow.getD t 0) =
      (k_x_idx st).map (fun j =>
        crow.getD (st.model.classifier.features.indexOf (st.indata_genes.getD j "")) 0) := by
    unfold lr_idx alignedGenes
    rw [List.map_map, List.map_map]
    rfl
  rw [scaleRow_kIdx, hcoef, dot_map_map]
  have hfn := whereIdx_map_fn (fun g => st.model.classifier.features.contains g) "" (0 : ℚ)
    (fun g x => refTerm st.model.classifier.features st.model.scaler crow g x)
    st.indata_genes r h
  rw [← hfn]
  rfl

theorem celltype_scores_eq (st : CellState)
    (h : ∀ r ∈ st.indata, r.length = st.indata_genes.length) :
    decision_function (celltypeAlign st).model.classifier (celltypeAlign st).indata =
      st.indata.map (fun r => refScoreRow st.model st.indata_genes r) := by
  unfold decision_function
  have hX : (celltypeAlign st).indata = st.indata.map (fun row => scaleRow st row) := rfl
  rw [hX, List.map_map]
  apply List.map_congr_left
  intro r hr
  show (((celltypeAlign st).model.classifier.coef_.zip
      (celltypeAlign st).model.classifier.intercept_).map
    (fun cw => dot (scaleRow st r) cw.1 + cw.2)) = refScoreRow st.model st.indata_genes r
  rw [align_intercept_eq]
  have hc : (celltypeAlign st).model.classifier.coef_ =
      st.model.classifier.coef_.map (fun crow => (lr_idx st).map (fun t => crow.getD t 0)) := rfl
  rw [hc, List.zip_map_left, List.map_map]
  unfold refScoreRow
  apply List.map_congr_left
  intro cw _
  show dot (scaleRow st r) ((lr_idx st).map (fun t => cw.1.getD t 0)) + cw.2 = _
  rw [dot_scaleRow st r cw.1 (h r hr)]

/-- The triple the scoring stage computes, in closed form: scores via
`refScoreRow`, probabilities by mapping σ entrywise, labels by per-row
argmax over the model's (unchanged) class list. -/
theorem celltypePredict_eq (σ : ℚ → ℚ) (st : CellState)
    (h : ∀ r ∈ st.indata, r.length = st.indata_genes.length) :
    (celltypePredict σ st).2 = Except.ok
      (st.indata.map (fun r => refScoreRow st.model st.indata_genes r),
       st.indata.map (fun r => (refScoreRow st.model st.indata_genes r).map σ),
       st.indata.map (fun r =>
         st.model.classifier.classes_.getD (argmaxIdx (refScoreRow st.model st.indata_genes r)) "")) := by
  show predict_labels_and_prob σ (celltypeAlign st).model.classifier
      (celltypeAlign st).indata "best match" (1 / 2) = _
  unfold predict_labels_and_prob
  rw [celltype_scores_eq st h]
  simp only [if_pos rfl, List.map_map, align_classes_eq, eq_self_iff_true, if_true,
    Function.comp_def]

/-- Every celltype() run that reaches line 193 fails there: models.py line
111 returns a 3-tuple, which cannot be unpacked into the two names of
classifier.py line 193, and in `best match` mode predict always returns
that 3-tuple. -/
theorem celltype_unpack_error (σ : ℚ → ℚ) (st : CellState) :
    (celltype σ st).2 =
      Except.error "ValueError: too many values to unpack (expected 2)" := by
  unfold celltype predict_labels_and_prob
  simp

theorem argmaxIdx_eq_of_first_max {α : Type} [LinearOrder α] {xs : List α} {k : Nat}
    (hk : k < xs.length) (hmax : ∀ y ∈ xs, y ≤ xs[k])
    (hfirst : ∀ j (hj : j < xs.length), j < k → xs.get ⟨j, hj⟩ < xs[k]) :
    argmaxIdx xs = k := by
  refine findIdx_eq_of_first hk (by simpa using hmax) ?_
  intro j hj hjk
  simp only [decide_eq_false_iff_not]
  intro hall
  exact absurd (hall _ (List.getElem_mem hk)) (not_le.mpr (hfirst j hj hjk))

/-- C3: in best-match mode, predict_labels_and_prob returns exactly one label
per cell, and any cell whose decision-score row has a strictly maximal class
is labelled with that class (argmax per row). -/
theorem C3_theorem (σ : ℚ → ℚ) (clf : SGDClassifier) (indata : List (List ℚ)) (t : ℚ)
    (S P : List (List ℚ)) (L : List String)
    (hok : predict_labels_and_prob σ clf indata "best match" t = Except.ok (S, P, L)) :
    L.length = indata.length ∧
    ∀ i k, k < (S.getD i []).length →
      (∀ j, j < (S.getD i []).length → j ≠ k →
        (S.getD i []).getD j 0 < (S.getD i []).getD k 0) →
      L.getD i "" = clf.classes_.getD k "" := by
  unfold predict_labels_and_prob at hok
  simp only [if_pos rfl, eq_self_iff_true, if_true, Except.ok.injEq, Prod.mk.injEq] at hok
  obtain ⟨hS, _hP, hL⟩ := hok
  constructor
  · rw [← hL, List.length_map]
    unfold decision_function
    rw [List.length_map]
  · intro i k hk hstrict
    have hiS : i < S.length := by
      by_contra hge
      push_neg at hge
      rw [List.getD_eq_default _ _ hge] at hk
      simp at hk
    have hrow : S.getD i [] = S[i] := List.getD_eq_getElem _ _ hiS
    rw [hrow] at hk hstrict
    have hiL : i < L.length := by rw [← hL, List.length_map, hS]; exact hiS
    have hLi : L.getD i "" = L.get ⟨i, hiL⟩ := by
      rw [List.getD_eq_getElem _ _ hiL, List.get_eq_getElem]
    have hLmap : L.get ⟨i, hiL⟩ = clf.classes_.getD (argmaxIdx (S.get ⟨i, hiS⟩)) "" := by
      subst hL hS
      simp
    rw [hLi, hLmap]
    congr 1
    apply argmaxIdx_eq_of_strict hk
    intro j hj hne
    have h1 := hstrict j hj hne
    rw [List.getD_eq_getElem _ _ hj, List.getD_eq_getElem _ _ hk] at h1
    simpa using h1

/-- C10: in best-match mode, a cell whose maximal score is shared by two or
more classes still gets exactly one label: the tied class occurring earliest
in `classes_` order (the first maximal index of the row). -/
theorem C10_theorem (σ : ℚ → ℚ) (clf : SGDClassifier) (indata : List (List ℚ)) (t : ℚ)
    (S P : List (List ℚ)) (L : List String)
    (hok : predict_labels_and_prob σ clf indata "best match" t = Except.ok (S, P, L)) :
    L.length = indata.length ∧
    ∀ i k, k < (S.getD i []).length →
      (∀ j, j < (S.getD i []).length → (S.getD i []).getD j 0 ≤ (S.getD i []).getD k 0) →
      (∀ j, j < k → (S.getD i []).getD j 0 < (S.getD i []).getD k 0) →
      (∃ j, j < (S.getD i []).length ∧ j ≠ k ∧
        (S.getD i []).getD j 0 = (S.getD i []).getD k 0) →
      L.getD i "" = clf.classes_.getD k "" := by
  unfold predict_labels_and_prob at hok
  simp only [if_pos rfl, eq_self_iff_true, if_true, Except.ok.injEq, Prod.mk.injEq] at hok
  obtain ⟨hS, _hP, hL⟩ := hok
  constructor
  · rw [← hL, List.length_map]
    unfold decision_function
    rw [List.length_map]
  · intro i k hk hmax hfirst _htie
    have hiS : i < S.length := by
      by_contra hge
      push_neg at hge
      rw [List.getD_eq_default _ _ hge] at hk
      simp at hk
    have hrow : S.getD i [] = S[i] := List.getD_eq_getElem _ _ hiS
    rw [hrow] at hk hmax hfirst
    have hiL : i < L.length := by rw [← hL, List.length_map, hS]; exact hiS
    have hLi : L.getD i "" = L.get ⟨i, hiL⟩ := by
      rw [List.getD_eq_getElem _ _ hiL, List.get_eq_getElem]
    have hLmap : L.get ⟨i, hiL⟩ = clf.classes_.getD (argmaxIdx (S.get ⟨i, hiS⟩)) "" := by
      subst hL hS
      simp
    rw [hLi, hLmap]
    congr 1
    apply argmaxIdx_eq_of_first_max hk
    · intro y hy
      obtain ⟨j, hj, rfl⟩ := List.mem_iff_getElem.mp hy
      have h1 := hmax j hj
      rw [List.getD_eq_getElem _ _ hj, List.getD_eq_getElem _ _ hk] at h1
      exact h1
    · intro j hj hjk
      have h1 := hfirst j hjk
      rw [List.getD_eq_getElem _ _ hj, List.getD_eq_getElem _ _ hk] at h1
      simpa using h1

/-- Fixture classifier: two classes over one gene, distinct weights. -/
def clfW : SGDClassifier :=
  { classes_ := ["A", "B"], features := ["g1"], coef_ := [[1], [0]],
    intercept_ := [0, 0], n_features_in_ := 1 }

/-- Fixture classifier engineered to produce a score tie. -/
def clfT : SGDClassifier :=
  { classes_ := ["A", "B"], features := ["g1"], coef_ := [[1], [1]],
    intercept_ := [0, 0], n_features_in_ := 1 }

theorem decW : decision_function clfW [[2]] = [[2, 0]] := by
  unfold decision_function clfW dot
  norm_num

theorem decT : decision_function clfT [[2]] = [[2, 2]] := by
  unfold decision_function clfT dot
  norm_num

theorem argmaxW : argmaxIdx ([2, 0] : List ℚ) = 0 := by
  apply argmaxIdx_eq_of_strict (by norm_num)
  intro j hj hne
  have hj2 : j < 2 := by simpa using hj
  interval_cases j
  · exact absurd rfl hne
  · norm_num

theorem argmaxT : argmaxIdx ([2, 2] : List ℚ) = 0 := by
  apply argmaxIdx_eq_of_first_max (by norm_num)
  · intro y hy
    simp at hy
    rcases hy with rfl | rfl <;> norm_num
  · intro j hj hjk
    exact absurd hjk (Nat.not_lt_zero j)

theorem predW : predict_labels_and_prob (fun q => q) clfW [[2]] "best match" (1 / 2) =
    Except.ok ([[2, 0]], [[2, 0]], ["A"]) := by
  unfold predict_labels_and_prob
  rw [decW]
  simp [argmaxW, clfW]

theorem predT : predict_labels_and_prob (fun q => q) clfT [[2]] "best match" (1 / 2) =
    Except.ok ([[2, 2]], [[2, 2]], ["A"]) := by
  unfold predict_labels_and_prob
  rw [decT]
  simp [argmaxT, clfT]

theorem C3_witness : (["A"] : List String).getD 0 "" = clfW.classes_.getD 0 "" := by
  have h := C3_theorem (fun q => q) clfW [[2]] (1 / 2) [[2, 0]] [[2, 0]] ["A"] predW
  refine h.2 0 0 (by norm_num) ?_
  intro j hj hne
  have hj2 : j < 2 := by simpa using hj
  interval_cases j
  · exact absurd rfl hne
  · norm_num

theorem C10_witness : (["A"] : List String).getD 0 "" = clfT.classes_.getD 0 "" := by
  have h := C10_theorem (fun q => q) clfT [[2]] (1 / 2) [[2, 2]] [[2, 2]] ["A"] predT
  refine h.2 0 0 (by norm_num) ?_ ?_ ?_
  · intro j hj
    have hj2 : j < 2 := by simpa using hj
    interval_cases j <;> norm_num
  · intro j hj
    exact absurd hj (Nat.not_lt_zero j)
  · exact ⟨1, by norm_num, by norm_num, by norm_num⟩

/-! ### Support for the prob-match claim -/

theorem pipeJoin_ne_empty {s : String} {l : List String} (h : s ≠ "") :
    pipeJoin (s :: l) ≠ "" := by
  cases l with
  | nil => simpa [pipeJoin] using h
  | cons b m =>
    show s ++ "|" ++ pipeJoin (b :: m) ≠ ""
    intro hc
    have hlen := congrArg String.length hc
    rw [String.length_append, String.length_append] at hlen
    have h1 : ("|" : String).length = 1 := by decide
    have h0 : ("" : String).length = 0 := rfl
    rw [h1, h0] at hlen
    omega

theorem snd_mem_of_mem_enum {α : Type} {pr : Nat × α} {l : List α} (h : pr ∈ l.enum) :
    pr.2 ∈ l := by
  obtain ⟨i, x⟩ := pr
  obtain ⟨h1, h2⟩ := List.mem_enum h
  rw [h2]
  exact List.getElem_mem h1

theorem whereIdx_eq_nil {α : Type} {l : List α} {p : α → Bool}
    (h : ∀ x ∈ l, p x = false) : whereIdx l p = [] := by
  unfold whereIdx
  rw [List.filter_eq_nil_iff.mpr, List.map_nil]
  intro pr hpr
  rw [h pr.2 (snd_mem_of_mem_enum hpr)]
  simp

theorem probmatch_names (t : ℚ) (classes : List String) (row : List ℚ)
    (h : classes.length = row.length) :
    (whereIdx row (fun p => decide (p > t))).map (fun j => classes.getD j "") =
      ((classes.zip row).filter (fun pr => decide (pr.2 > t))).map (fun pr => pr.1) := by
  have h1 : (whereIdx row (fun p => decide (p > t))).map (fun j => classes.getD j "") =
      ((row.zip classes).filter (fun pr => decide (pr.1 > t))).map (fun pr => pr.2) :=
    whereIdx_map_fn (fun p => decide (p > t)) (0 : ℚ) "" (fun _ c => c) row classes h
  rw [h1]
  have hswap : classes.zip row = (row.zip classes).map Prod.swap :=
    (List.zip_swap row classes).symm
  rw [hswap, List.filter_map, List.map_map]
  rfl

/-- C4: in prob-match mode, a cell whose class probabilities are all at or
below the threshold is labelled `Unassigned`; a cell with at least one class
probability strictly above the threshold is labelled with the pipe-joined
class names whose probability exceeds it, in `classes_` order. -/
theorem C4_theorem (σ : ℚ → ℚ) (clf : SGDClassifier) (indata : List (List ℚ)) (t : ℚ)
    (S P : List (List ℚ)) (L : List String)
    (hc : clf.coef_.length = clf.classes_.length)
    (hb : clf.intercept_.length = clf.classes_.length)
    (hnames : ∀ c ∈ clf.classes_, c ≠ "")
    (hok : predict_labels_and_prob σ clf indata "prob match" t = Except.ok (S, P, L)) :
    L.length = indata.length ∧
    ∀ i, i < indata.length →
      ((∀ p ∈ P.getD i [], p ≤ t) → L.getD i "" = "Unassigned") ∧
      ((∃ p ∈ P.getD i [], p > t) →
        L.getD i "" = pipeJoin (((clf.classes_.zip (P.getD i [])).filter
          (fun pr => decide (pr.2 > t))).map (fun pr => pr.1))) := by
  unfold predict_labels_and_prob at hok
  rw [if_neg (by decide), if_pos rfl] at hok
  simp only [Except.ok.injEq, Prod.mk.injEq] at hok
  obtain ⟨hS, hP, hL⟩ := hok
  subst hS
  subst hP
  subst hL
  have hDlen : (decision_function clf indata).length = indata.length := by
    unfold decision_function
    rw [List.length_map]
  refine ⟨by rw [List.length_map, List.length_map, hDlen], ?_⟩
  intro i hi
  have hiD : i < (decision_function clf indata).length := by rw [hDlen]; exact hi
  have hiP : i < ((decision_function clf indata).map (fun row => row.map σ)).length := by
    rw [List.length_map]; exact hiD
  have hrowlen : (((decision_function clf indata).map (fun row => row.map σ)).getD i []).length =
      clf.classes_.length := by
    rw [List.getD_eq_getElem _ _ hiP, List.getElem_map, List.length_map]
    unfold decision_function
    rw [List.getElem_map, List.length_map, List.length_zip, hc, hb, min_self]
  have hiL : i < (((decision_function clf indata).map (fun row => row.map σ)).map
      (fun row => if pipeJoin ((whereIdx row (fun p => decide (p > t))).map
        (fun j => clf.classes_.getD j "")) = "" then "Unassigned"
      else pipeJoin ((whereIdx row (fun p => decide (p > t))).map
        (fun j => clf.classes_.getD j "")))).length := by
    rw [List.length_map, List.length_map]
    exact hiD
  have hLval : (((decision_function clf indata).map (fun row => row.map σ)).map
      (fun row => if pipeJoin ((whereIdx row (fun p => decide (p > t))).map
        (fun j => clf.classes_.getD j "")) = "" then "Unassigned"
      else pipeJoin ((whereIdx row (fun p => decide (p > t))).map
        (fun j => clf.classes_.getD j "")))).getD i "" =
      (if pipeJoin ((whereIdx (((decision_function clf indata).map
            (fun row => row.map σ)).getD i []) (fun p => decide (p > t))).map
          (fun j => clf.classes_.getD j "")) = "" then "Unassigned"
      else pipeJoin ((whereIdx (((decision_function clf indata).map
            (fun row => row.map σ)).getD i []) (fun p => decide (p > t))).map
          (fun j => clf.classes_.getD j ""))) := by
    rw [List.getD_eq_getElem _ _ hiL, List.getElem_map, List.getD_eq_getElem _ _ hiP]
  constructor
  · intro hall
    rw [hLval]
    have hnilidx : whereIdx (((decision_function clf indata).map
        (fun row => row.map σ)).getD i []) (fun p => decide (p > t)) = [] := by
      apply whereIdx_eq_nil
      intro x hx
      simp only [decide_eq_false_iff_not, not_lt]
      exact hall x hx
    rw [hnilidx]
    simp [pipeJoin]
  · intro hex
    rw [hLval]
    have hbridge := probmatch_names t clf.classes_
      (((decision_function clf indata).map (fun row => row.map σ)).getD i []) hrowlen.symm
    have hnonempty : ((clf.classes_.zip (((decision_function clf indata).map
        (fun row => row.map σ)).getD i [])).filter (fun pr => decide (pr.2 > t))) ≠ [] := by
      obtain ⟨p, hp, hpt⟩ := hex
      obtain ⟨j, hj, rfl⟩ := List.mem_iff_getElem.mp hp
      have hjz : j < (clf.classes_.zip (((decision_function clf indata).map
          (fun row => row.map σ)).getD i [])).length := by
        rw [List.length_zip, hrowlen, min_self]
        rw [hrowlen] at hj
        exact hj
      have hjc : j < clf.classes_.length := by rw [hrowlen] at hj; exact hj
      have hmemz := List.getElem_mem hjz
      rw [List.getElem_zip] at hmemz
      apply List.ne_nil_of_mem (a := (clf.classes_.get ⟨j, hjc⟩,
        (((decision_function clf indata).map (fun row => row.map σ)).getD i []).get ⟨j, hj⟩))
      rw [List.mem_filter]
      refine ⟨by simpa using hmemz, by simpa using hpt⟩
    match hfe : ((clf.classes_.zip (((decision_function clf indata).map
        (fun row => row.map σ)).getD i [])).filter (fun pr => decide (pr.2 > t))) with
    | [] => exact absurd hfe hnonempty
    | pr0 :: rest =>
      have hmem0 : pr0 ∈ ((clf.classes_.zip (((decision_function clf indata).map
          (fun row => row.map σ)).getD i [])).filter (fun pr => decide (pr.2 > t))) := by
        rw [hfe]; exact List.mem_cons_self _ _
      have hcls : pr0.1 ∈ clf.classes_ :=
        (List.of_mem_zip (List.mem_filter.mp hmem0).1).1
      have hne0 : pr0.1 ≠ "" := hnames _ hcls
      rw [hbridge, hfe, List.map_cons]
      rw [if_neg (pipeJoin_ne_empty hne0)]

/-! ### Alignment claims: intersection order and in-place model mutation -/

theorem scaleRow_filter_eq (st : CellState) (r : List ℚ)
    (h : r.length = st.indata_genes.length) :
    scaleRow st r =
      ((st.indata_genes.zip r).filter
          (fun pr => st.model.classifier.features.contains pr.1)).map
        (fun pr => clip10 ((pr.2 -
            st.model.scaler.mean_.getD (st.model.classifier.features.indexOf pr.1) 0) /
          st.model.scaler.scale_.getD (st.model.classifier.features.indexOf pr.1) 0)) := by
  rw [scaleRow_kIdx]
  exact whereIdx_map_fn (fun g => st.model.classifier.features.contains g) "" (0 : ℚ)
    (fun g x => clip10 ((x -
        st.model.scaler.mean_.getD (st.model.classifier.features.indexOf g) 0) /
      st.model.scaler.scale_.getD (st.model.classifier.features.indexOf g) 0))
    st.indata_genes r h

/-- Fixture for the C1 counterexample: the input lists the two overlapping
genes in the order g2, g1 while the model's feature order is g1, g2. -/
def stC1 : CellState :=
  { indata := [[1, 2]]
    indata_genes := ["g2", "g1"]
    model :=
      { classifier :=
          { classes_ := ["A"], features := ["g1", "g2"], coef_ := [[1, 2]],
            intercept_ := [0], n_features_in_ := 2 }
        scaler := { mean_ := [0, 0], scale_ := [1, 1] } } }

/-- C1 counterexample: the gene list celltype() aligns to is NOT the
intersection in the model's feature order — on stC1 the aligned list is
["g2", "g1"] (input order) while the model-order intersection is
["g1", "g2"]. -/
theorem C1_counterexample :
    (celltypeAlign stC1).indata_genes ≠
      modelOrderIntersection stC1.model.classifier.features stC1.indata_genes := by
  decide

/-- C1 amended: the set of genes used for scoring is exactly the intersection
of the model's feature list and the input's gene list, arranged in the
*input's* gene order (not the model's); the model's feature list is rewritten
to exactly that gene sequence, the weight matrix columns are re-indexed
one-to-one through each kept gene's position in the original feature list,
and each matrix entry is standardized by the mean/scale at that same
position. -/
theorem C1_theorem (st : CellState)
    (h : ∀ r ∈ st.indata, r.length = st.indata_genes.length) :
    (celltypeAlign st).indata_genes =
      st.indata_genes.filter (fun g => st.model.classifier.features.contains g) ∧
    (celltypeAlign st).model.classifier.features = (celltypeAlign st).indata_genes ∧
    (celltypeAlign st).model.classifier.coef_ =
      st.model.classifier.coef_.map (fun crow => (celltypeAlign st).indata_genes.map
        (fun g => crow.getD (st.model.classifier.features.indexOf g) 0)) ∧
    (celltypeAlign st).indata = st.indata.map (fun r =>
      ((st.indata_genes.zip r).filter
          (fun pr => st.model.classifier.features.contains pr.1)).map
        (fun pr => clip10 ((pr.2 -
            st.model.scaler.mean_.getD (st.model.classifier.features.indexOf pr.1) 0) /
          st.model.scaler.scale_.getD (st.model.classifier.features.indexOf pr.1) 0))) := by
  have hg : (celltypeAlign st).indata_genes = alignedGenes st := rfl
  refine ⟨by rw [hg, alignedGenes_eq], ?_, ?_, ?_⟩
  · rw [align_features_eq, hg]
  · rw [align_coef_eq, hg]
  · show st.indata.map (fun row => scaleRow st row) = _
    apply List.map_congr_left
    intro r hr
    exact scaleRow_filter_eq st r (h r hr)

theorem C1_witness :
    (celltypeAlign stC1).indata_genes =
      stC1.indata_genes.filter (fun g => stC1.model.classifier.features.contains g) ∧
    (celltypeAlign stC1).model.classifier.features = (celltypeAlign stC1).indata_genes ∧
    (celltypeAlign stC1).model.classifier.coef_ =
      stC1.model.classifier.coef_.map (fun crow => (celltypeAlign stC1).indata_genes.map
        (fun g => crow.getD (stC1.model.classifier.features.indexOf g) 0)) ∧
    (celltypeAlign stC1).indata = stC1.indata.map (fun r =>
      ((stC1.indata_genes.zip r).filter
          (fun pr => stC1.model.classifier.features.contains pr.1)).map
        (fun pr => clip10 ((pr.2 -
            stC1.model.scaler.mean_.getD (stC1.model.classifier.features.indexOf pr.1) 0) /
          stC1.model.scaler.scale_.getD (stC1.model.classifier.features.indexOf pr.1) 0))) :=
  C1_theorem stC1 (by intro r hr; simp only [stC1, List.mem_singleton] at hr; subst hr; rfl)

/-- Fixture for C8: the model has a feature g3 absent from the input. -/
def stC8 : CellState :=
  { indata := [[1]]
    indata_genes := ["g1"]
    model :=
      { classifier :=
          { classes_ := ["A"], features := ["g1", "g3"], coef_ := [[1, 2]],
            intercept_ := [0], n_features_in_ := 2 }
        scaler := { mean_ := [0, 0], scale_ := [1, 1] } } }

/-- C8: celltype() overwrites the shared model's classifier in place — after
the call its feature list, coefficient matrix and feature count hold the
aligned subset, and when some trained feature is missing from the input the
feature list genuinely differs from the original, so the mutated model is
not the loaded one any more. -/
theorem C8_theorem (σ : ℚ → ℚ) (st : CellState) (f : String)
    (hf : f ∈ st.model.classifier.features) (hnf : f ∉ st.indata_genes) :
    (celltype σ st).1.model.classifier.features =
      st.indata_genes.filter (fun g => st.model.classifier.features.contains g) ∧
    (celltype σ st).1.model.classifier.n_features_in_ =
      (st.indata_genes.filter (fun g => st.model.classifier.features.contains g)).length ∧
    (celltype σ st).1.model.classifier.coef_ =
      st.model.classifier.coef_.map (fun crow =>
        (st.indata_genes.filter (fun g => st.model.classifier.features.contains g)).map
          (fun g => crow.getD (st.model.classifier.features.indexOf g) 0)) ∧
    (celltype σ st).1.model.classifier.features ≠ st.model.classifier.features := by
  have hg : alignedGenes st =
      st.indata_genes.filter (fun g => st.model.classifier.features.contains g) :=
    alignedGenes_eq st
  have h1 : (celltype σ st).1 = celltypeAlign st := rfl
  refine ⟨?_, ?_, ?_, ?_⟩
  · rw [h1, align_features_eq, hg]
  · rw [h1, align_nfeat_eq, hg]
  · rw [h1, align_coef_eq, hg]
  · rw [h1, align_features_eq, hg]
    intro hc
    have hmem : f ∈ st.indata_genes.filter
        (fun g => st.model.classifier.features.contains g) := by
      rw [hc]; exact hf
    exact hnf (List.mem_filter.mp hmem).1

theorem C8_witness :
    (celltype (fun q => q) stC8).1.model.classifier.features =
      stC8.indata_genes.filter (fun g => stC8.model.classifier.features.contains g) ∧
    (celltype (fun q => q) stC8).1.model.classifier.n_features_in_ =
      (stC8.indata_genes.filter (fun g => stC8.model.classifier.features.contains g)).length ∧
    (celltype (fun q => q) stC8).1.model.classifier.coef_ =
      stC8.model.classifier.coef_.map (fun crow =>
        (stC8.indata_genes.filter (fun g => stC8.model.classifier.features.contains g)).map
          (fun g => crow.getD (stC8.model.classifier.features.indexOf g) 0)) ∧
    (celltype (fun q => q) stC8).1.model.classifier.features ≠
      stC8.model.classifier.features :=
  C8_theorem (fun q => q) stC8 "g3" (by decide) (by decide)


/-! ### Permutation invariance of the pipeline -/

/-- Permuted copy of the input: gene columns and gene names rearranged
together by `perm`. -/
def permuteState (st : CellState) (perm : List Nat) : CellState :=
  { indata := st.indata.map (fun r => perm.map (fun j => r.getD j 0))
    indata_genes := perm.map (fun j => st.indata_genes.getD j "")
    model := st.model }

/-- C2: permuting the input's gene columns (names moved together with the
columns) leaves the decision scores, the probabilities and the predicted
label of every cell unchanged — stated on the (scores, probabilities,
labels) triple that models.py lines 108-116 compute and return; the
caller's subsequent two-name unpacking failure at classifier.py line 193 is
identical on both runs. -/
theorem C2_theorem (σ : ℚ → ℚ) (st : CellState) (perm : List Nat)
    (hperm : perm.Perm (List.range st.indata_genes.length))
    (h : ∀ r ∈ st.indata, r.length = st.indata_genes.length)
    (hnd : st.model.classifier.features.Nodup) :
    (celltypePredict σ (permuteState st perm)).2 = (celltypePredict σ st).2 := by
  have hlen : perm.length = st.indata_genes.length := by
    simpa using hperm.length_eq
  have h2 : ∀ r ∈ (permuteState st perm).indata,
      r.length = (permuteState st perm).indata_genes.length := by
    intro r hr
    obtain ⟨r0, hr0, rfl⟩ := List.mem_map.mp hr
    simp [permuteState]
  rw [celltypePredict_eq σ st h, celltypePredict_eq σ (permuteState st perm) h2]
  have hm : (permuteState st perm).model = st.model := rfl
  have key : ∀ r ∈ st.indata,
      refScoreRow (permuteState st perm).model (permuteState st perm).indata_genes
        (perm.map (fun j => r.getD j 0)) = refScoreRow st.model st.indata_genes r := by
    intro r hr
    rw [hm]
    unfold refScoreRow
    apply List.map_congr_left
    intro cw _
    congr 1
    apply List.Perm.sum_eq
    apply List.Perm.map
    apply List.Perm.filter
    have hz2 : (permuteState st perm).indata_genes.zip (perm.map (fun j => r.getD j 0)) =
        perm.map (fun j => (st.indata_genes.getD j "", r.getD j 0)) := by
      show (perm.map (fun j => st.indata_genes.getD j "")).zip
        (perm.map (fun j => r.getD j 0)) = _
      rw [List.zip_map']
    have hz1 : st.indata_genes.zip r =
        (List.range st.indata_genes.length).map
          (fun j => (st.indata_genes.getD j "", r.getD j 0)) :=
      (range_map_pair "" 0 st.indata_genes r (h r hr)).symm
    rw [hz2, hz1]
    exact hperm.map _
  have hA : (permuteState st perm).indata.map
      (fun r => refScoreRow (permuteState st perm).model
        (permuteState st perm).indata_genes r) =
      st.indata.map (fun r => refScoreRow st.model st.indata_genes r) := by
    show (st.indata.map (fun r => perm.map (fun j => r.getD j 0))).map _ = _
    rw [List.map_map]
    apply List.map_congr_left
    intro r hr
    exact key r hr
  have hB : (permuteState st perm).indata.map
      (fun r => (refScoreRow (permuteState st perm).model
        (permuteState st perm).indata_genes r).map σ) =
      st.indata.map (fun r => (refScoreRow st.model st.indata_genes r).map σ) := by
    show (st.indata.map (fun r => perm.map (fun j => r.getD j 0))).map _ = _
    rw [List.map_map]
    apply List.map_congr_left
    intro r hr
    exact congrArg (fun l => l.map σ) (key r hr)
  have hC : (permuteState st perm).indata.map
      (fun r => (permuteState st perm).model.classifier.classes_.getD
        (argmaxIdx (refScoreRow (permuteState st perm).model
          (permuteState st perm).indata_genes r)) "") =
      st.indata.map (fun r => st.model.classifier.classes_.getD
        (argmaxIdx (refScoreRow st.model st.indata_genes r)) "") := by
    show (st.indata.map (fun r => perm.map (fun j => r.getD j 0))).map _ = _
    rw [List.map_map]
    apply List.map_congr_left
    intro r hr
    rw [hm]
    exact congrArg (fun l => st.model.classifier.classes_.getD (argmaxIdx l) "") (key r hr)
  rw [hA, hB, hC]

theorem C2_witness :
    (celltypePredict (fun q => q) (permuteState stC1 [1, 0])).2 =
      (celltypePredict (fun q => q) stC1).2 :=
  C2_theorem (fun q => q) stC1 [1, 0] (by decide)
    (by intro r hr; simp only [stC1, List.mem_singleton] at hr; subst hr; rfl)
    (by decide)


/-! ### Zero gene overlap -/

/-- Fixture for C7: no input gene occurs among the model features. -/
def stC7 : CellState :=
  { indata := [[7]]
    indata_genes := ["gX"]
    model :=
      { classifier :=
          { classes_ := ["A", "B"], features := ["g1"], coef_ := [[3], [4]],
            intercept_ := [1, 2], n_features_in_ := 1 }
        scaler := { mean_ := [0], scale_ := [1] } } }

theorem refRowC7 : refScoreRow stC7.model stC7.indata_genes [7] = [1, 2] := by
  unfold refScoreRow
  have hfil : ((stC7.indata_genes.zip [(7 : ℚ)]).filter
      (fun pr => stC7.model.classifier.features.contains pr.1)) = [] := by decide
  rw [hfil]
  simp [stC7]

theorem argmaxC7 : argmaxIdx ([1, 2] : List ℚ) = 1 := by decide

/-- C7 counterexample: on a model/input pair with zero gene overlap the
pipeline does NOT stop short of rescaling and scoring — the aligned model
has zero features, yet the scoring stage completes on the empty feature set
and computes the intercept-only triple (scores [1, 2], label "B"); the
error celltype() then raises is the unconditional two-name unpacking
ValueError of classifier.py line 193, not an empty-intersection check. -/
theorem C7_counterexample :
    (celltypeAlign stC7).model.classifier.n_features_in_ = 0 ∧
    (celltypePredict (fun q => q) stC7).2 = Except.ok ([[1, 2]], [[1, 2]], ["B"]) ∧
    (celltype (fun q => q) stC7).2 =
      Except.error "ValueError: too many values to unpack (expected 2)" := by
  refine ⟨by decide, ?_, celltype_unpack_error _ _⟩
  rw [celltypePredict_eq (fun q => q) stC7
    (by intro r hr; simp only [stC7, List.mem_singleton] at hr; subst hr; rfl)]
  have hind : stC7.indata = [[7]] := rfl
  rw [hind]
  simp only [List.map_cons, List.map_nil, refRowC7, argmaxC7]
  simp [stC7]

/-- C7 amended: the pipeline performs no zero-overlap check.  With an empty
intersection of model features and input genes it proceeds to rescale and
score with the empty feature set: the aligned model has zero features and
the scoring stage computes, for every cell, the intercept vector as scores,
σ of it as probabilities, and the argmax-of-intercepts class as the label.
The celltype() call then fails — but with the ValueError that the two-name
unpacking at classifier.py line 193 raises on every run reaching it,
regardless of gene overlap, not with an empty-intersection error. -/
theorem C7_theorem (σ : ℚ → ℚ) (st : CellState)
    (hempty : ∀ g ∈ st.indata_genes, st.model.classifier.features.contains g = false)
    (h : ∀ r ∈ st.indata, r.length = st.indata_genes.length)
    (hcb : st.model.classifier.coef_.length = st.model.classifier.intercept_.length) :
    (celltypeAlign st).model.classifier.n_features_in_ = 0 ∧
    (celltypePredict σ st).2 = Except.ok
      (st.indata.map (fun _ => st.model.classifier.intercept_),
       st.indata.map (fun _ => st.model.classifier.intercept_.map σ),
       st.indata.map (fun _ => st.model.classifier.classes_.getD
         (argmaxIdx st.model.classifier.intercept_) "")) ∧
    (celltype σ st).2 =
      Except.error "ValueError: too many values to unpack (expected 2)" := by
  refine ⟨?_, ?_, celltype_unpack_error σ st⟩
  · rw [align_nfeat_eq, alignedGenes_eq]
    rw [List.filter_eq_nil_iff.mpr]
    · rfl
    · intro g hg
      rw [hempty g hg]
      simp
  · rw [celltypePredict_eq σ st h]
    have hrow : ∀ r ∈ st.indata,
        refScoreRow st.model st.indata_genes r = st.model.classifier.intercept_ := by
      intro r hr
      unfold refScoreRow
      have hfil : (st.indata_genes.zip r).filter
          (fun pr => st.model.classifier.features.contains pr.1) = [] := by
        rw [List.filter_eq_nil_iff]
        intro pr hpr
        rw [hempty pr.1 (List.of_mem_zip hpr).1]
        simp
      rw [hfil]
      simp only [List.map_nil, List.sum_nil, zero_add]
      exact List.map_snd_zip _ _ hcb.ge
    have hA : st.indata.map (fun r => refScoreRow st.model st.indata_genes r) =
        st.indata.map (fun _ => st.model.classifier.intercept_) :=
      List.map_congr_left hrow
    have hB : st.indata.map (fun r => (refScoreRow st.model st.indata_genes r).map σ) =
        st.indata.map (fun _ => st.model.classifier.intercept_.map σ) :=
      List.map_congr_left (fun r hr => congrArg (fun l => l.map σ) (hrow r hr))
    have hC : st.indata.map (fun r => st.model.classifier.classes_.getD
        (argmaxIdx (refScoreRow st.model st.indata_genes r)) "") =
        st.indata.map (fun _ => st.model.classifier.classes_.getD
          (argmaxIdx st.model.classifier.intercept_) "") :=
      List.map_congr_left (fun r hr =>
        congrArg (fun l => st.model.classifier.classes_.getD (argmaxIdx l) "") (hrow r hr))
    rw [hA, hB, hC]

theorem C7_witness :
    (celltypeAlign stC7).model.classifier.n_features_in_ = 0 ∧
    (celltypePredict (fun q => q) stC7).2 = Except.ok
      (stC7.indata.map (fun _ => stC7.model.classifier.intercept_),
       stC7.indata.map (fun _ => stC7.model.classifier.intercept_.map (fun q => q)),
       stC7.indata.map (fun _ => stC7.model.classifier.classes_.getD
         (argmaxIdx stC7.model.classifier.intercept_) "")) ∧
    (celltype (fun q => q) stC7).2 =
      Except.error "ValueError: too many values to unpack (expected 2)" :=
  C7_theorem (fun q => q) stC7 (by decide)
    (by intro r hr; simp only [stC7, List.mem_singleton] at hr; subst hr; rfl)
    (by decide)

/-! ### Witness for the prob-match claim -/

theorem predP : predict_labels_and_prob (fun q => q) clfW [[2]] "prob match" 0 =
    Except.ok ([[2, 0]], [[2, 0]], ["A"]) := by
  unfold predict_labels_and_prob
  rw [decW]
  rw [if_neg (by decide), if_pos rfl]
  have hw : whereIdx ([2, 0] : List ℚ) (fun p => decide (p > (0 : ℚ))) = [0] := by decide
  simp [hw, clfW, pipeJoin]

theorem C4_witness :
    (["A"] : List String).getD 0 "" =
      pipeJoin (((clfW.classes_.zip (([[2, 0]] : List (List ℚ)).getD 0 [])).filter
        (fun pr => decide (pr.2 > (0 : ℚ)))).map (fun pr => pr.1)) := by
  have h := C4_theorem (fun q => q) clfW [[2]] 0 [[2, 0]] [[2, 0]] ["A"]
    (by decide) (by decide) (by decide) predP
  exact (h.2 0 (by decide)).2 ⟨2, by decide, by decide⟩

/-! ### Majority voting -/

theorem crosstabRows_sorted (labels : List String) :
    List.Sorted (fun a b => a ≤ b) (crosstabRows labels) :=
  List.sorted_insertionSort _ _

theorem mem_crosstabRows {labels : List String} {lab : String} :
    lab ∈ crosstabRows labels ↔ lab ∈ labels := by
  unfold crosstabRows
  rw [(List.perm_insertionSort _ _).mem_iff, List.mem_dedup]

theorem crosstabRows_ne_nil {labels : List String} (hne : labels ≠ []) :
    crosstabRows labels ≠ [] := by
  obtain ⟨x, hx⟩ := List.exists_mem_of_ne_nil labels hne
  exact List.ne_nil_of_mem (mem_crosstabRows.mpr hx)

theorem majorityOf_count_ge (labels clusters : List String) (clu : String)
    (hne : labels ≠ []) (lab : String) (hlab : lab ∈ labels) :
    clusterCount labels clusters lab clu ≤
      clusterCount labels clusters (majorityOf labels clusters clu) clu := by
  have hrne : crosstabRows labels ≠ [] := crosstabRows_ne_nil hne
  have hcne : (crosstabRows labels).map
      (fun l => clusterCount labels clusters l clu) ≠ [] := by
    simpa using hrne
  have hclt := argmaxIdx_lt_length hcne
  have hrlt : argmaxIdx ((crosstabRows labels).map
      (fun l => clusterCount labels clusters l clu)) < (crosstabRows labels).length := by
    rw [List.length_map] at hclt
    exact hclt
  have hmaj : majorityOf labels clusters clu = (crosstabRows labels).get
      ⟨argmaxIdx ((crosstabRows labels).map (fun l => clusterCount labels clusters l clu)),
        hrlt⟩ := by
    unfold majorityOf
    rw [List.getD_eq_getElem _ _ hrlt, List.get_eq_getElem]
  have hca : ((crosstabRows labels).map (fun l => clusterCount labels clusters l clu)).get
      ⟨argmaxIdx ((crosstabRows labels).map (fun l => clusterCount labels clusters l clu)),
        argmaxIdx_lt_length hcne⟩ =
      clusterCount labels clusters ((crosstabRows labels).get
        ⟨argmaxIdx ((crosstabRows labels).map (fun l => clusterCount labels clusters l clu)),
          hrlt⟩) clu := by
    rw [List.get_eq_getElem, List.get_eq_getElem]
    exact List.getElem_map _
  have hmem : clusterCount labels clusters lab clu ∈
      (crosstabRows labels).map (fun l => clusterCount labels clusters l clu) :=
    List.mem_map_of_mem _ (mem_crosstabRows.mpr hlab)
  have h := argmaxIdx_max hcne _ hmem
  rw [hca] at h
  rw [hmaj]
  exact h

theorem majorityOf_min_tie (labels clusters : List String) (clu : String)
    (hne : labels ≠ []) (lab : String) (hlab : lab ∈ crosstabRows labels)
    (htie : clusterCount labels clusters lab clu =
      clusterCount labels clusters (majorityOf labels clusters clu) clu) :
    majorityOf labels clusters clu ≤ lab := by
  obtain ⟨k, hk, hlabeq⟩ := List.mem_iff_getElem.mp hlab
  have hrne : crosstabRows labels ≠ [] := crosstabRows_ne_nil hne
  have hcne : (crosstabRows labels).map
      (fun l => clusterCount labels clusters l clu) ≠ [] := by
    simpa using hrne
  have hclt := argmaxIdx_lt_length hcne
  have hrlt : argmaxIdx ((crosstabRows labels).map
      (fun l => clusterCount labels clusters l clu)) < (crosstabRows labels).length := by
    rw [List.length_map] at hclt
    exact hclt
  have hmaj : majorityOf labels clusters clu = (crosstabRows labels).get
      ⟨argmaxIdx ((crosstabRows labels).map (fun l => clusterCount labels clusters l clu)),
        hrlt⟩ := by
    unfold majorityOf
    rw [List.getD_eq_getElem _ _ hrlt, List.get_eq_getElem]
  have hkc : k < ((crosstabRows labels).map
      (fun l => clusterCount labels clusters l clu)).length := by
    rw [List.length_map]
    exact hk
  have hgl : (crosstabRows labels).get ⟨k, hk⟩ = lab := by
    rw [List.get_eq_getElem]
    exact hlabeq
  have h2 : ((crosstabRows labels).map (fun l => clusterCount labels clusters l clu)).get
      ⟨k, hkc⟩ = clusterCount labels clusters lab clu := by
    rw [List.get_eq_getElem]
    rw [show clusterCount labels clusters lab clu =
        clusterCount labels clusters ((crosstabRows labels).get ⟨k, hk⟩) clu by rw [hgl]]
    rw [List.get_eq_getElem]
    exact List.getElem_map _
  have h3 : ((crosstabRows labels).map (fun l => clusterCount labels clusters l clu)).get
      ⟨argmaxIdx ((crosstabRows labels).map (fun l => clusterCount labels clusters l clu)),
        argmaxIdx_lt_length hcne⟩ =
      clusterCount labels clusters (majorityOf labels clusters clu) clu := by
    rw [List.get_eq_getElem, hmaj, List.get_eq_getElem]
    exact List.getElem_map _
  have hmax : ∀ y ∈ (crosstabRows labels).map
      (fun l => clusterCount labels clusters l clu),
      y ≤ ((crosstabRows labels).map (fun l => clusterCount labels clusters l clu)).get
        ⟨k, hkc⟩ := by
    intro y hy
    have h1 := argmaxIdx_max hcne y hy
    rw [h3, ← htie, ← h2] at h1
    exact h1
  have hle : argmaxIdx ((crosstabRows labels).map
      (fun l => clusterCount labels clusters l clu)) ≤ k :=
    argmaxIdx_le_of_max hkc hmax
  rw [hmaj, ← hgl]
  rcases lt_or_eq_of_le hle with hlt | heq
  · exact (crosstabRows_sorted labels).rel_get_of_lt (a := ⟨_, hrlt⟩) (b := ⟨k, hk⟩) hlt
  · exact le_of_eq (by simp only [heq])

theorem getCol_majority_vote (labs clusters : List String) (prob : List (List ℚ)) :
    getCol (majority_vote ⟨[("predicted_labels", labs)], prob⟩ clusters)
      "majority_voting" = clusters.map (fun c => majorityOf labs clusters c) := by
  unfold majority_vote getCol
  simp

/-- C5: majority voting gives every cell of a cluster the same label; that
label's count within the cluster is at least the count of every other
predicted label there; and on ties the label is the lowest one in the
contingency table's canonical (sorted) row order. -/
theorem C5_theorem (labs clusters : List String) (prob : List (List ℚ)) (mv : List String)
    (hlen : clusters.length = labs.length) (hne : labs ≠ [])
    (hmv : getCol (majority_vote ⟨[("predicted_labels", labs)], prob⟩ clusters)
      "majority_voting" = mv) :
    mv.length = clusters.length ∧
    (∀ i j, i < clusters.length → j < clusters.length →
      clusters.getD i "" = clusters.getD j "" → mv.getD i "" = mv.getD j "") ∧
    (∀ i lab, i < clusters.length → lab ∈ labs →
      clusterCount labs clusters lab (clusters.getD i "") ≤
        clusterCount labs clusters (mv.getD i "") (clusters.getD i "")) ∧
    (∀ i lab, i < clusters.length → lab ∈ crosstabRows labs →
      clusterCount labs clusters lab (clusters.getD i "") =
        clusterCount labs clusters (mv.getD i "") (clusters.getD i "") →
      mv.getD i "" ≤ lab) := by
  rw [getCol_majority_vote] at hmv
  subst hmv
  have hmvi : ∀ i, i < clusters.length →
      (clusters.map (fun c => majorityOf labs clusters c)).getD i "" =
        majorityOf labs clusters (clusters.getD i "") := by
    intro i hi
    rw [List.getD_eq_getElem _ _ (by rw [List.length_map]; exact hi),
      List.getElem_map, List.getD_eq_getElem _ _ hi]
  refine ⟨List.length_map _ _, ?_, ?_, ?_⟩
  · intro i j hi hj hcl
    rw [hmvi i hi, hmvi j hj, hcl]
  · intro i lab hi hlab
    rw [hmvi i hi]
    exact majorityOf_count_ge labs clusters _ hne lab hlab
  · intro i lab hi hlab htie
    rw [hmvi i hi]
    rw [hmvi i hi] at htie
    exact majorityOf_min_tie labs clusters _ hne lab hlab htie

theorem C5_witness :
    (["A", "A"] : List String).getD 0 "" = (["A", "A"] : List String).getD 1 "" ∧
    clusterCount ["A", "A"] ["c1", "c1"] "A" ((["c1", "c1"] : List String).getD 0 "") ≤
      clusterCount ["A", "A"] ["c1", "c1"] ((["A", "A"] : List String).getD 0 "")
        ((["c1", "c1"] : List String).getD 0 "") ∧
    (["A", "A"] : List String).getD 0 "" ≤ "A" := by
  have h := C5_theorem ["A", "A"] ["c1", "c1"] [[1], [1]] ["A", "A"]
    (by decide) (by decide) (by decide)
  exact ⟨h.2.1 0 1 (by decide) (by decide) (by decide),
    h.2.2.1 0 "A" (by decide) (by decide),
    h.2.2.2 0 "A" (by decide) (by decide) (by decide)⟩

/-- C6: majority_vote leaves the probability table and the pre-existing
predicted_labels column untouched, and the only change to the labels table is
the append of exactly the two per-cell columns over_clustering (the cluster
assignment) and majority_voting (the majority-voted label). -/
theorem C6_theorem (predictions : AnnotationResult) (over_clustering : List String) :
    (majority_vote predictions over_clustering).probability_table =
      predictions.probability_table ∧
    getCol (majority_vote predictions over_clustering) "predicted_labels" =
      getCol predictions "predicted_labels" ∧
    (majority_vote predictions over_clustering).labelCols =
      predictions.labelCols ++
        [("over_clustering", over_clustering),
         ("majority_voting", over_clustering.map (fun c =>
           majorityOf (getCol predictions "predicted_labels") over_clustering c))] := by
  refine ⟨rfl, ?_, rfl⟩
  unfold majority_vote getCol
  rw [List.filter_append]
  simp

/-! ### The download batch -/

/-- Fixture model index and network for C9: fetching the first model fails. -/
def jsonC9 : List ModelEntry := [⟨"ModelA.pkl", "urlA"⟩, ⟨"ModelB.pkl", "urlB"⟩]

def netC9 : String → Except String String :=
  fun u => if u = "urlA" then Except.error "ConnectionError" else Except.ok "bytes"

/-- C9: as written, download_models never reaches its download loop — the
guard at models.py line 249 reads the unbound name model_list, so every call
fails with NameError before any download is attempted; the per-model
try/except of lines 254-265 (download_models_loop), had it been reached,
would have recorded the first model's failure and still fetched the second. -/
theorem C9_theorem :
    download_models jsonC9 [] netC9 false =
      Except.error "NameError: name model_list is not defined" ∧
    download_models_loop jsonC9 [] netC9 false =
      [DownloadEvent.failed "ModelA.pkl" "ConnectionError",
       DownloadEvent.downloaded "ModelB.pkl"] :=
  ⟨rfl, by decide⟩


end Celltypist
